import Mathlib

/-!
Verification of the Shred_Guttman secure-deletion engine (`secure_delete.py`)
against its natural-language specification.

The Python source is shallowly embedded: pure computations become Lean
functions over `Nat` byte values and `List Char` path strings; the stateful
shredding pipeline becomes a trace-producing state function over an explicit
filesystem-outcome record.  Machine randomness (`secrets.token_bytes`) is
modelled as an oracle `rng : Nat → List Nat` whose only assumed property is
the documented API contract that `rng n` has length `n`.
-/

namespace ShredGuttman

/-! ## The 35-pass Gutmann schedule (`AdvancedModeShredder.PATTERNS`) -/

/-- One entry of `AdvancedModeShredder.PATTERNS["gutmann_35_pass"]`:
either a call to `secrets.token_bytes` (`random`), a constant fill
`bytes([b] * size)` (`const b`), or a 3-byte motif
`bytes([a, b, c] * (size // 3 + 1))[:size]` (`motif a b c`). -/
inductive PatternGen where
  | random : PatternGen
  | const : Nat → PatternGen
  | motif : Nat → Nat → Nat → PatternGen
deriving DecidableEq, Repr

/-- `AdvancedModeShredder.PATTERNS["gutmann_35_pass"]`, entry by entry in
source order (secure_delete.py lines 34–66). -/
def gutmann_35_pass : List PatternGen :=
  [.random, .random, .random, .random,
   .const 0x55, .const 0xAA,
   .motif 0x92 0x49 0x24, .motif 0x49 0x24 0x92, .motif 0x24 0x92 0x49,
   .const 0x00, .const 0x11, .const 0x22, .const 0x33,
   .const 0x44, .const 0x55, .const 0x66, .const 0x77,
   .const 0x88, .const 0x99, .const 0xAA, .const 0xBB,
   .const 0xCC, .const 0xDD, .const 0xEE, .const 0xFF,
   .motif 0x92 0x49 0x24, .motif 0x49 0x24 0x92, .motif 0x24 0x92 0x49,
   .motif 0x6D 0xB6 0xDB, .motif 0xB6 0xDB 0x6D, .motif 0xDB 0x6D 0xB6,
   .random, .random, .random, .random]

/-- `AdvancedModeShredder.get_wipe_method()`: always returns the
`gutmann_35_pass` schedule, with no dependence on file type or size. -/
def get_wipe_method : List PatternGen := gutmann_35_pass

/-- Evaluate one pattern generator at a requested byte count, exactly as the
Python lambdas do.  `rng` is the `secrets.token_bytes` oracle. -/
def runPattern (rng : Nat → List Nat) : PatternGen → Nat → List Nat
  | .random, n => rng n
  | .const b, n => List.replicate n b
  | .motif a b c, n => (List.flatten (List.replicate (n / 3 + 1) [a, b, c])).take n

/-- The schedule exactly as §4.1 of the spec words it: 4 random passes, the
0x55/0xAA pair, the first motif triple, 16 constant fills stepping
`0x00, 0x11, …, 0xFF`, the motif triples again, and 4 final random passes. -/
def gutmannScheduleSpec : List PatternGen :=
  List.replicate 4 .random
    ++ [.const 0x55, .const 0xAA]
    ++ [.motif 0x92 0x49 0x24, .motif 0x49 0x24 0x92, .motif 0x24 0x92 0x49]
    ++ (List.range 16).map (fun i => .const (0x11 * i))
    ++ [.motif 0x92 0x49 0x24, .motif 0x49 0x24 0x92, .motif 0x24 0x92 0x49]
    ++ [.motif 0x6D 0xB6 0xDB, .motif 0xB6 0xDB 0x6D, .motif 0xDB 0x6D 0xB6]
    ++ List.replicate 4 .random

/-! ## Path classifier (`_is_sensitive_system_path`, `validate_shredding_path`) -/

/-- `str.lower()` on one character, for the ASCII range the denylist uses. -/
def pyLowerChar (c : Char) : Char :=
  if 'A' ≤ c ∧ c ≤ 'Z' then Char.ofNat (c.toNat + 32) else c

/-- `s.lower()` over the character list of a path string. -/
def pyLower (s : List Char) : List Char := s.map pyLowerChar

/-- `s.replace('/', '\\')` — the separator normalization the classifier
applies unconditionally, on every platform. -/
def slashToBackslash (s : List Char) : List Char :=
  s.map (fun c => if c = '/' then '\\' else c)

/-- `s.startswith(p)` at the character-list level (`p` is the pattern). -/
def startsWithL : List Char → List Char → Bool
  | [], _ => true
  | _ :: _, [] => false
  | p :: ps, c :: cs => p == c && startsWithL ps cs

/-- `s.endswith("\\")`. -/
def endsWithBackslash (s : List Char) : Bool :=
  match s.getLast? with
  | some c => c == '\\'
  | none => false

/-- `platform.system()` outcome relevant to the classifier. -/
inductive Platform where
  | windows
  | posix
deriving DecidableEq

/-- The Windows denylist table (secure_delete.py lines 96–103). -/
def windowsSensitivePaths : List (List Char) :=
  (["c:\\windows\\", "c:\\program files\\", "c:\\program files (x86)\\",
    "c:\\programdata\\", "c:\\system32\\", "c:\\syswow64\\",
    "c:\\$windows.~bt\\", "c:\\$windows.~ws\\", "c:\\boot\\",
    "c:\\recovery\\", "c:\\system volume information\\",
    "c:\\config.msi\\", "c:\\pagefile.sys", "c:\\hiberfil.sys",
    "c:\\swapfile.sys", "c:\\windows.old\\"] : List String).map String.toList

/-- The POSIX denylist table (secure_delete.py lines 114–119), verbatim,
including the capitalised macOS entries. -/
def posixSensitivePaths : List (List Char) :=
  (["/bin/", "/sbin/", "/etc/", "/usr/", "/var/", "/sys/",
    "/proc/", "/dev/", "/lib/", "/lib64/", "/boot/", "/root/",
    "/opt/", "/mnt/", "/media/", "/lost+found/", "/initrd",
    "/vmlinuz", "/System/", "/Library/", "/Applications/"] : List String).map String.toList

/-- The POSIX exact-match root list (secure_delete.py line 121). -/
def posixExactRoots : List (List Char) :=
  (["/", "/home/", "/root/", "/etc/", "/usr/", "/var/"] : List String).map String.toList

/-- `re.match(r'^[a-z]:\\?$', s)` (the second regex `^[a-z]:$` matches a
subset of this one, so the disjunction in the source adds nothing). -/
def isDriveRootRegex (s : List Char) : Bool :=
  match s with
  | [c, ':'] => 'a' ≤ c && c ≤ 'z'
  | [c, ':', '\\'] => 'a' ≤ c && c ≤ 'z'
  | _ => false

/-- `len(s) == 3 and s[1:3] == ":\\"` — note the first character is
unconstrained in the source. -/
def isLen3DriveRoot (s : List Char) : Bool :=
  match s with
  | [_, ':', '\\'] => true
  | _ => false

/-- A path as the classifier sees it: `absStr` is `str(path.absolute())` as
produced by the operating system, and `underHome` is the value of
`path.absolute().is_relative_to(Path.home())` (a pure path-component
computation in Python; it is `true` when home's components are a prefix of
the path's components, in particular when the path equals home itself). -/
structure PathInfo where
  absStr : List Char
  underHome : Bool

/-- `_is_sensitive_system_path` (secure_delete.py lines 81–129), translated
branch by branch.  The `except`-anything → `True` arm is unreachable in this
pure model because none of the embedded operations can fail. -/
def isSensitiveSystemPath (plat : Platform) (p : PathInfo) : Bool :=
  let s := slashToBackslash (pyLower p.absStr)
  if p.underHome then false
  else
    let sensitivePaths :=
      match plat with
      | .windows => windowsSensitivePaths
      | .posix => posixSensitivePaths
    let earlyRoot :=
      match plat with
      | .windows => isDriveRootRegex s || isLen3DriveRoot s
      | .posix => posixExactRoots.any (fun t => s == t)
    if earlyRoot then true
    else
      let norm := if endsWithBackslash s then s else s ++ ['\\']
      sensitivePaths.any (fun sp => startsWithL sp norm)

/-- Filesystem facts about the candidate path that
`validate_shredding_path` queries. -/
structure FsEntry where
  existsOnDisk : Bool
  isSymlink : Bool

/-- `validate_shredding_path` (secure_delete.py lines 855–871). -/
def validate_shredding_path (plat : Platform) (fs : FsEntry) (p : PathInfo) :
    Bool × String :=
  if !fs.existsOnDisk then (false, "Path does not exist")
  else if isSensitiveSystemPath plat p then (false, "Path is in system location")
  else if fs.isSymlink then (false, "Symbolic links not supported")
  else (true, "Path validated - Advanced MODE READY")

/-- Spec-side matcher (follows the spec's words, for comparison with the
source): on POSIX a path is denylisted when its lower-cased absolute form,
normalized to end in the POSIX separator, extends one of the table entries
by prefix, or is the bare root. -/
def specPosixDenyMatch (s : List Char) : Bool :=
  let t := pyLower s
  let norm := if t.getLast? == some '/' then t else t ++ ['/']
  t == ['/'] || posixSensitivePaths.any (fun sp => startsWithL sp norm)

/-- Spec-side check (follows the spec's words): the path is exactly one of
the denylisted POSIX roots, up to a trailing separator. -/
def specPosixDenylistedRoot (s : List Char) : Bool :=
  posixExactRoots.any (fun t => s == t || s ++ ['/'] == t)

/-! ## Buffer sizing and the chunked per-pass write loop
(`_secure_overwrite_ultimate`, secure_delete.py lines 514–601) -/

/-- The tiered buffer choice of lines 530–537 (`MAX_BUFFER_SIZE` is
64 MiB, `MIN_BUFFER_SIZE` 64 KiB). -/
def tieredBufsize (originalSize : Nat) : Nat :=
  if originalSize > 10 * 1024 * 1024 * 1024 then
    min (64 * 1024 * 1024) (originalSize / 1000)
  else if originalSize > 1024 * 1024 * 1024 then 8 * 1024 * 1024
  else if originalSize > 100 * 1024 * 1024 then 2 * 1024 * 1024
  else 64 * 1024

/-- Buffer-size selection (lines 527–540): the tiered choice followed by
`bufsize = max(MIN_BUFFER_SIZE, min(MAX_BUFFER_SIZE, bufsize))`. -/
def computeBufsize (originalSize : Nat) : Nat :=
  max (64 * 1024) (min (64 * 1024 * 1024) (tieredBufsize originalSize))

/-- The `while written < original_size` loop's successive chunk sizes, each
`min(bufsize, original_size - written)` (line 564).  `fuel` bounds the
iteration count; `fuel = size` suffices because every iteration writes at
least one byte when `bufsize > 0`. -/
def chunkSizesAux (bufsize : Nat) : Nat → Nat → Nat → List Nat
  | 0, _, _ => []
  | fuel + 1, size, written =>
    if written < size then
      let c := min bufsize (size - written)
      c :: chunkSizesAux bufsize fuel size (written + c)
    else []

/-- Chunk sizes of one full pass over a file of `size` bytes. -/
def chunkSizes (bufsize size : Nat) : List Nat :=
  chunkSizesAux bufsize size size 0

/-- The bytes one pass writes: the pattern generator is invoked once per
chunk, at that chunk's size (line 565), and the chunks are written back to
back from offset 0. -/
def passData (rng : Nat → List Nat) (g : PatternGen) (buf size : Nat) : List Nat :=
  ((chunkSizes buf size).map (runPattern rng g)).flatten

/-- Effect of one pass on the file content: the pass seeks to offset 0 and
rewrites exactly the first `size` bytes; any bytes beyond `size` survive. -/
def runPass (rng : Nat → List Nat) (g : PatternGen) (buf size : Nat)
    (content : List Nat) : List Nat :=
  passData rng g buf size ++ content.drop size

/-- Content transformation of a whole overwrite session: `original_size` and
the buffer size are captured once from the file before any pass (line 522)
and are never re-read, then the 35 passes run in schedule order. -/
def secureOverwriteContent (rng : Nat → List Nat) (content : List Nat) : List Nat :=
  let size := content.length
  let buf := computeBufsize size
  gutmann_35_pass.foldl (fun c g => runPass rng g buf size c) content

/-! ## Event traces of the shredding pipeline -/

/-- Observable actions of one `shred_file_Advanced_mode` invocation. -/
inductive Ev where
  | renameEv : Ev
  | pollEv : Nat → Ev
  | writeEv : Nat → Ev
  | fsyncEv : Ev
  | verifyWarnEv : Ev
  | timestampsEv : Bool → Ev
  | unlinkEv : Ev
  | restatEv : Ev
  | cleanupUnlinkEv : Ev
deriving DecidableEq, Repr

/-- The cancellation signal: `stopAt = some k` means `stop_event.is_set()`
returns `True` from the `k`-th poll onwards (the caller set the event at
some real time between the polls numbered `k - 1` and `k`); `none` means the
event is never set. -/
def stopSet (stopAt : Option Nat) (i : Nat) : Bool :=
  match stopAt with
  | none => false
  | some k => k ≤ i

/-- Result of the chunk loop / pass loop: emitted events, the index the next
poll will carry, and whether `OperationInterrupted` was raised. -/
structure LoopOut where
  events : List Ev
  nextPoll : Nat
  interrupted : Bool
deriving DecidableEq, Repr

/-- The `while written < original_size` body (lines 560–572): poll the stop
event, then write one chunk.  The poll sits at the top of every iteration,
so at most one chunk is written after the signal is set. -/
def chunkLoop (stopAt : Option Nat) : List Nat → Nat → LoopOut
  | [], i => ⟨[], i, false⟩
  | c :: rest, i =>
    if stopSet stopAt i then ⟨[.pollEv i], i + 1, true⟩
    else
      let r := chunkLoop stopAt rest (i + 1)
      ⟨.pollEv i :: .writeEv c :: r.events, r.nextPoll, r.interrupted⟩

/-- The `for pass_num, pattern_fn in enumerate(patterns, 1)` loop (lines
545–585): poll at the top of the pass, run the chunk loop, then
`flush` + `fsync` before the next pass starts. -/
def passLoop (stopAt : Option Nat) (chunks : List Nat) :
    List PatternGen → Nat → LoopOut
  | [], i => ⟨[], i, false⟩
  | _g :: rest, i =>
    if stopSet stopAt i then ⟨[.pollEv i], i + 1, true⟩
    else
      let c := chunkLoop stopAt chunks (i + 1)
      if c.interrupted then ⟨.pollEv i :: c.events, c.nextPoll, true⟩
      else
        let r := passLoop stopAt chunks rest c.nextPoll
        ⟨.pollEv i :: c.events ++ [.fsyncEv] ++ r.events, r.nextPoll, r.interrupted⟩

/-- Trace and outcome of `_secure_overwrite_ultimate` when called with
`progress=None`: the 35 passes with polling, then — only if no interruption —
the best-effort read-back of `min(4096, original_size)` bytes, which logs a
warning when the data is non-empty and its first 100 bytes are not all
zero (lines 587–591) but never changes the outcome. -/
def overwriteRun (rng : Nat → List Nat) (stopAt : Option Nat)
    (content : List Nat) : LoopOut :=
  let size := content.length
  let buf := computeBufsize size
  let chunks := chunkSizes buf size
  let r := passLoop stopAt chunks gutmann_35_pass 0
  if r.interrupted then r
  else
    let finalData := (secureOverwriteContent rng content).take 4096
    if !finalData.isEmpty && !((finalData.take 100).all (fun b => b == 0)) then
      ⟨r.events ++ [.verifyWarnEv], r.nextPoll, false⟩
    else r

/-! ## `shred_file_Advanced_mode` (secure_delete.py lines 603–702) -/

/-- Inputs and injected filesystem outcomes of one `shred_file` call.
`sensitive` is the value of `_is_sensitive_system_path(path.absolute())`;
`absStartsWithHome` is the secondary
`str(path.absolute()).lower().startswith(str(Path.home()).lower())` check of
lines 634–636; `renameOk` says whether the very first `os.replace` attempt
inside `_secure_rename_ultimate` succeeds. -/
structure ShredInput where
  pathName : String
  scrambledName : String
  existsOnDisk : Bool
  isFile : Bool
  isSymlink : Bool
  isDir : Bool
  sensitive : Bool
  absStartsWithHome : Bool
  renameOk : Bool
  content : List Nat

/-- `return False, f" Advanced MODE ERROR: {exc}"` — the generic failure
result of `shred_file_Advanced_mode` (line 702; note the leading space). -/
def errRes (m : String) : Bool × String :=
  (false, " Advanced MODE ERROR: " ++ m)

/-- The message a mid-overwrite cancellation actually produces: the
`OperationInterrupted("Operation cancelled by user")` raised in the loop is
caught by the blanket `except Exception` of `_secure_overwrite_ultimate`
(line 600) and re-raised as
`ShredError("Unexpected error during overwrite: …")`, which the caller's
generic handler turns into this result string. -/
def cancelledResultMsg : String :=
  " Advanced MODE ERROR: Unexpected error during overwrite: Operation cancelled by user"

/-- The post-unlink consistency failure (line 675), wrapped by the generic
handler. -/
def consistencyErrMsg : String :=
  " Advanced MODE ERROR: FILE STILL EXISTS AFTER DELETION"

/-- `shred_file_Advanced_mode`: validation, rename, 35-pass overwrite,
timestamp obfuscation, final disposition.  `existsAfterUnlink` injects the
re-stat outcome after `unlink`; `tsFails` injects a failure of the
best-effort timestamp obfuscation (which `_obscure_timestamps_ultimate`
swallows after logging, lines 480–483).  Because the interruption raised in
the overwrite loop reaches this function as a `ShredError`, the
`except OperationInterrupted` cleanup block of lines 690–698 is dead code:
no `cleanupUnlinkEv` is ever emitted. -/
def shredFile (rng : Nat → List Nat) (inp : ShredInput) (keep : Bool)
    (stopAt : Option Nat) (existsAfterUnlink tsFails : Bool) :
    List Ev × (Bool × String) :=
  if !inp.existsOnDisk then ([], errRes "Target does not exist")
  else if !inp.isFile then ([], errRes "Target is not a regular file")
  else if inp.isSymlink then ([], errRes "Symbolic links not supported")
  else if inp.isDir then ([], errRes "Use shred_directory() for directories")
  else if inp.sensitive && !inp.absStartsWithHome then
    ([], errRes ("REFUSING TO SHRED SYSTEM PATH: " ++ inp.pathName))
  else if !inp.renameOk then
    ([], errRes "Secure rename failed: Failed to rename file: [OS error]")
  else
    let ov := overwriteRun rng stopAt inp.content
    if ov.interrupted then
      (Ev.renameEv :: ov.events, (false, cancelledResultMsg))
    else
      let evs := Ev.renameEv :: ov.events ++ [Ev.timestampsEv tsFails]
      if !keep then
        if existsAfterUnlink then
          (evs ++ [Ev.unlinkEv, Ev.restatEv], (false, consistencyErrMsg))
        else
          (evs ++ [Ev.unlinkEv, Ev.restatEv],
           (true, "☠️ FILE DESTROYED: " ++ inp.pathName ++ " -> IRRECOVERABLE"))
      else
        (evs,
         (true, "✅ FILE PRESERVED: " ++ inp.pathName ++ " -> "
            ++ inp.scrambledName ++ " (ALL METADATA OBFUSCATED)"))

/-- All validation gates of `shred_file_Advanced_mode` pass and the first
rename attempt succeeds. -/
def validationOk (inp : ShredInput) : Bool :=
  inp.existsOnDisk && inp.isFile && !inp.isSymlink && !inp.isDir
    && (!inp.sensitive || inp.absStartsWithHome) && inp.renameOk

/-- Events the overwrite phase may emit. -/
def isOvEv : Ev → Bool
  | .pollEv _ => true
  | .writeEv _ => true
  | .fsyncEv => true
  | .verifyWarnEv => true
  | _ => false

/-- Chunk-write events. -/
def isWriteEv : Ev → Bool
  | .writeEv _ => true
  | _ => false

/-! ## `shred_directory` (secure_delete.py lines 736–849) -/

/-- Outcome of `shred_file_Advanced_mode` on one discovered file, as the
directory loop sees it: `ok` for `(True, _)`, `fail msg` for
`(False, msg)`. -/
inductive FileOutcome where
  | ok : FileOutcome
  | fail : String → FileOutcome
deriving DecidableEq, Repr

/-- `needle in hay` on character lists (Python substring test). -/
def containsSub (needle : List Char) : List Char → Bool
  | [] => startsWithL needle []
  | c :: rest => startsWithL needle (c :: rest) || containsSub needle rest

/-- `"cancelled" in msg.lower()` (line 823). -/
def isCancelMsg (m : String) : Bool :=
  containsSub "cancelled".toList (pyLower m.toList)

/-- `true` when this per-file outcome makes the directory loop raise
`OperationInterrupted`. -/
def isCancelOutcome : FileOutcome → Bool
  | .ok => false
  | .fail m => isCancelMsg m

/-- The per-file loop of `shred_directory` (lines 797–827): a failing file
is logged and skipped unless its message contains "cancelled", in which
case the loop raises `OperationInterrupted` at once.  Returns the number of
files processed and the interrupting message, if any. -/
def dirLoop : List FileOutcome → Nat × Option String
  | [] => (0, none)
  | .ok :: rest =>
    let r := dirLoop rest
    (r.1 + 1, r.2)
  | .fail m :: rest =>
    if isCancelMsg m then (1, some m)
    else
      let r := dirLoop rest
      (r.1 + 1, r.2)

/-- `shred_directory` from the point where the eligible-file list has been
collected (line 784 onwards): the empty list returns the non-exceptional
`(False, "No files found in directory")` result; otherwise the per-file
loop runs, and on completion the directory tree is removed unless
`keep_file` is set — a removal failure (`rmtreeOk = false`) only logs a
warning (the middle component) and never changes the result. -/
def shredDirectoryRun (outcomes : List FileOutcome) (keep rmtreeOk : Bool) :
    Nat × Bool × (Bool × String) :=
  if outcomes.isEmpty then (0, false, (false, "No files found in directory"))
  else
    let r := dirLoop outcomes
    match r.2 with
    | some m => (r.1, false, (false, m))
    | none =>
      let rmWarn := !keep && !rmtreeOk
      (r.1, rmWarn,
       (true,
        if keep then
          "DIRECTORY OVERWRITTEN: " ++ toString outcomes.length ++ " FILES (PRESERVED)"
        else
          "DIRECTORY DESTROYED: " ++ toString outcomes.length ++ " FILES - IRRECOVERABLE"))

/-- The fixed `secrets.token_bytes` stand-in used by concrete witnesses:
returns `n` zero bytes. -/
def rngZero : Nat → List Nat := fun n => List.replicate n 0

/-- A `secrets.token_bytes` stand-in returning `n` bytes of value 1, used to
exhibit a run in which the final read-back logs its warning. -/
def rngOne : Nat → List Nat := fun n => List.replicate n 1

/-- A well-formed one-byte user file, used as concrete input. -/
def sampleInput : ShredInput :=
  { pathName := "secret.txt"
    scrambledName := "AdvancedMODE_0f.tmp"
    existsOnDisk := true
    isFile := true
    isSymlink := false
    isDir := false
    sensitive := false
    absStartsWithHome := true
    renameOk := true
    content := [0x41] }

/-- The same file with empty content (a zero-byte regular file). -/
def emptyFileInput : ShredInput :=
  { sampleInput with content := [] }

/-- Spec-side tiling statement for motif generators: the returned sequence
is the 3-byte motif tiled from offset 0 and truncated to the requested
length.  Trivially true for the other generator kinds. -/
def motifTilesOK (rng : Nat → List Nat) (g : PatternGen) (n : Nat) : Prop :=
  match g with
  | .motif a b c =>
      runPattern rng g n = (List.range n).map (fun i => List.getD [a, b, c] (i % 3) 0)
  | _ => True

/-! ## Theorems -/

/-- `bytes([a,b,c] * k)` is the motif tiled `k` times: its `i`-th byte is
the motif byte at `i % 3`. -/
theorem flatten_replicate_three (a b c : Nat) (k : Nat) :
    List.flatten (List.replicate k [a, b, c])
      = (List.range (3 * k)).map (fun i => List.getD [a, b, c] (i % 3) 0) := by
  induction k with
  | zero => simp
  | succ k ih =>
    rw [List.replicate_succ, List.flatten_cons, ih]
    have h3 : 3 * (k + 1) = 3 + 3 * k := by ring
    rw [h3, List.range_add]
    rw [List.map_append, List.map_map]
    have h0 : (List.range 3).map (fun i => List.getD [a, b, c] (i % 3) 0)
        = [a, b, c] := by
      rfl
    have h1 : (List.range (3 * k)).map
          ((fun i => List.getD [a, b, c] (i % 3) 0) ∘ (fun x => 3 + x))
        = (List.range (3 * k)).map (fun i => List.getD [a, b, c] (i % 3) 0) := by
      refine List.map_congr_left (fun i _ => ?_)
      simp [Function.comp, Nat.add_mod_left]
    rw [h0, h1]

/-- The motif lambdas `bytes([a,b,c] * (size // 3 + 1))[:size]` produce the
motif tiled and truncated to exactly `size` bytes. -/
theorem motif_runPattern_eq_tile (rng : Nat → List Nat) (a b c n : Nat) :
    runPattern rng (.motif a b c) n
      = (List.range n).map (fun i => List.getD [a, b, c] (i % 3) 0) := by
  show (List.flatten (List.replicate (n / 3 + 1) [a, b, c])).take n = _
  rw [flatten_replicate_three]
  rw [← List.map_take, List.take_range]
  have hmin : min n (3 * (n / 3 + 1)) = n := by omega
  rw [hmin]

/-- Every generator in the schedule returns exactly the requested number of
bytes, given the `secrets.token_bytes` length contract for the random
entries. -/
theorem runPattern_length (rng : Nat → List Nat)
    (hrng : ∀ n, (rng n).length = n) (g : PatternGen) (n : Nat) :
    (runPattern rng g n).length = n := by
  cases g with
  | random => exact hrng n
  | const b => simp [runPattern]
  | motif a b c => rw [motif_runPattern_eq_tile]; simp

/-- C9: for every requested byte count `n ≥ 0` and every generator of the
35-entry schedule, the output has exactly `n` bytes, and each motif
generator's output is its 3-byte motif tiled and truncated to length `n`.
The random generators' length relies only on the `secrets.token_bytes`
API contract `hrng`. -/
theorem C9_generators_exact_length_and_tiling (rng : Nat → List Nat)
    (hrng : ∀ n, (rng n).length = n) (g : PatternGen)
    (hg : g ∈ get_wipe_method) (n : Nat) :
    (runPattern rng g n).length = n ∧ motifTilesOK rng g n := by
  refine ⟨runPattern_length rng hrng g n, ?_⟩
  cases g with
  | random => trivial
  | const b => trivial
  | motif a b c => exact motif_runPattern_eq_tile rng a b c n

/-- Witness for `C9_generators_exact_length_and_tiling` at the pass-7 motif
and `n = 7`. -/
theorem C9_generators_witness :
    (runPattern rngZero (PatternGen.motif 0x92 0x49 0x24) 7).length = 7
    ∧ motifTilesOK rngZero (PatternGen.motif 0x92 0x49 0x24) 7 :=
  C9_generators_exact_length_and_tiling rngZero (fun n => List.length_replicate n 0)
    (PatternGen.motif 0x92 0x49 0x24) (by decide) 7

/-- The buffer size is never zero (it is at least `MIN_BUFFER_SIZE`). -/
theorem computeBufsize_pos (n : Nat) : 0 < computeBufsize n :=
  lt_of_lt_of_le (by norm_num) (Nat.le_max_left _ _)

/-- The chunk sizes of one pass sum to the whole remaining byte count. -/
theorem chunkSizesAux_sum (bufsize : Nat) (hb : 0 < bufsize) :
    ∀ fuel size written, size - written ≤ fuel →
      (chunkSizesAux bufsize fuel size written).sum = size - written := by
  intro fuel
  induction fuel with
  | zero =>
    intro size written h
    simp only [chunkSizesAux, List.sum_nil]
    omega
  | succ fuel ih =>
    intro size written h
    simp only [chunkSizesAux]
    split
    · next hlt =>
      rw [List.sum_cons, ih size (written + min bufsize (size - written)) (by omega)]
      omega
    · next hge =>
      simp only [List.sum_nil]
      omega

/-- Every chunk is `min(bufsize, size - written_so_far)`. -/
theorem chunkSizesAux_getD (bufsize : Nat) (hb : 0 < bufsize) :
    ∀ fuel size written, size - written ≤ fuel →
      ∀ i, i < (chunkSizesAux bufsize fuel size written).length →
        (chunkSizesAux bufsize fuel size written).getD i 0
          = min bufsize
              (size - (written
                + ((chunkSizesAux bufsize fuel size written).take i).sum)) := by
  intro fuel
  induction fuel with
  | zero =>
    intro size written hf i h
    simp [chunkSizesAux] at h
  | succ fuel ih =>
    intro size written hf i h
    by_cases hlt : written < size
    · simp only [chunkSizesAux, if_pos hlt] at h ⊢
      cases i with
      | zero => simp
      | succ i =>
        simp only [List.getD_cons_succ, List.take_succ_cons, List.sum_cons]
        rw [ih size (written + min bufsize (size - written)) (by omega) i
          (by simpa using h)]
        congr 1
        omega
    · simp only [chunkSizesAux, if_neg hlt, List.length_nil] at h
      omega

/-- One pass writes exactly `size` bytes in total. -/
theorem chunkSizes_sum (bufsize size : Nat) (hb : 0 < bufsize) :
    (chunkSizes bufsize size).sum = size := by
  have := chunkSizesAux_sum bufsize hb size size 0 (by omega)
  simpa [chunkSizes] using this

/-- Chunk `i` of a pass is `min(bufsize, size - bytes already written)`. -/
theorem chunkSizes_getD (bufsize size : Nat) (hb : 0 < bufsize)
    (i : Nat) (h : i < (chunkSizes bufsize size).length) :
    (chunkSizes bufsize size).getD i 0
      = min bufsize (size - ((chunkSizes bufsize size).take i).sum) := by
  have := chunkSizesAux_getD bufsize hb size size 0 (by omega) i h
  simpa [chunkSizes] using this

/-- One pass's written data has exactly `size` bytes. -/
theorem passData_length (rng : Nat → List Nat)
    (hrng : ∀ n, (rng n).length = n) (g : PatternGen) (buf size : Nat)
    (hb : 0 < buf) : (passData rng g buf size).length = size := by
  unfold passData
  rw [List.length_flatten, List.map_map]
  have hmap : (chunkSizes buf size).map (List.length ∘ runPattern rng g)
      = (chunkSizes buf size).map id :=
    List.map_congr_left (fun c _ => runPattern_length rng hrng g c)
  rw [hmap, List.map_id]
  exact chunkSizes_sum buf size hb

/-- Folding passes over the content preserves its length, so the size
captured before pass 1 stays correct for every later pass. -/
theorem foldl_runPass_length (rng : Nat → List Nat)
    (hrng : ∀ n, (rng n).length = n) (buf size : Nat) (hb : 0 < buf) :
    ∀ (gens : List PatternGen) (content : List Nat), content.length = size →
      (gens.foldl (fun c g => runPass rng g buf size c) content).length = size := by
  intro gens
  induction gens with
  | nil => intro content h; simpa
  | cons g rest ih =>
    intro content h
    simp only [List.foldl_cons]
    apply ih
    unfold runPass
    rw [List.length_append, passData_length rng hrng g buf size hb,
      List.length_drop]
    omega

/-- C4: with `original_size` captured once from the file before any pass
and the buffer chosen once from it, every one of the 35 passes writes
exactly `original_size` bytes starting at offset 0, in chunks each sized
`min(buffer_size, remaining_bytes)`; consequently the session never changes
the file's length, so the size captured up front stays valid without ever
being re-read. -/
theorem C4_overwrite_session (rng : Nat → List Nat)
    (hrng : ∀ n, (rng n).length = n) (content : List Nat) :
    (chunkSizes (computeBufsize content.length) content.length).sum
        = content.length
    ∧ (∀ i, i < (chunkSizes (computeBufsize content.length)
            content.length).length →
        (chunkSizes (computeBufsize content.length) content.length).getD i 0
          = min (computeBufsize content.length)
              (content.length
                - ((chunkSizes (computeBufsize content.length)
                      content.length).take i).sum))
    ∧ (∀ g ∈ gutmann_35_pass,
        (passData rng g (computeBufsize content.length) content.length).length
          = content.length)
    ∧ (secureOverwriteContent rng content).length = content.length := by
  have hb := computeBufsize_pos content.length
  refine ⟨chunkSizes_sum _ _ hb, fun i h => chunkSizes_getD _ _ hb i h,
    fun g _ => passData_length rng hrng g _ _ hb, ?_⟩
  exact foldl_runPass_length rng hrng _ _ hb gutmann_35_pass content rfl

/-- Witness for `C4_overwrite_session` on a concrete 3-byte file. -/
theorem C4_overwrite_session_witness :
    (chunkSizes (computeBufsize 3) 3).sum = 3
    ∧ (secureOverwriteContent rngZero [1, 2, 3]).length = 3 :=
  ⟨(C4_overwrite_session rngZero (fun n => List.length_replicate n 0) [1, 2, 3]).1,
   (C4_overwrite_session rngZero (fun n => List.length_replicate n 0) [1, 2, 3]).2.2.2⟩

/-- With the stop event never set, the chunk loop never interrupts. -/
theorem chunkLoop_none_not_interrupted (chunks : List Nat) :
    ∀ i, (chunkLoop none chunks i).interrupted = false := by
  induction chunks with
  | nil => intro i; rfl
  | cons c rest ih =>
    intro i
    simp only [chunkLoop, stopSet]
    exact ih (i + 1)

/-- With the stop event never set, the pass loop never interrupts. -/
theorem passLoop_none_not_interrupted (chunks : List Nat) :
    ∀ (gens : List PatternGen) (i : Nat),
      (passLoop none chunks gens i).interrupted = false := by
  intro gens
  induction gens with
  | nil => intro i; rfl
  | cons g rest ih =>
    intro i
    simp only [passLoop, stopSet, chunkLoop_none_not_interrupted, Bool.false_eq_true,
      if_false]
    exact ih _

/-- With the stop event never set, the overwrite phase completes. -/
theorem overwriteRun_none_not_interrupted (rng : Nat → List Nat)
    (content : List Nat) :
    (overwriteRun rng none content).interrupted = false := by
  simp only [overwriteRun, passLoop_none_not_interrupted, Bool.false_eq_true,
    if_false]
  split
  · rfl
  · exact passLoop_none_not_interrupted _ _ _

/-- Every event the chunk loop emits is an overwrite-phase event. -/
theorem chunkLoop_events_ov (stopAt : Option Nat) :
    ∀ (chunks : List Nat) (i : Nat), ∀ e ∈ (chunkLoop stopAt chunks i).events,
      isOvEv e = true := by
  intro chunks
  induction chunks with
  | nil => intro i e he; simp [chunkLoop] at he
  | cons c rest ih =>
    intro i e he
    simp only [chunkLoop] at he
    split at he
    · simp only [List.mem_singleton] at he
      subst he; rfl
    · simp only [List.mem_cons] at he
      rcases he with h | h | h
      · subst h; rfl
      · subst h; rfl
      · exact ih (i + 1) e h

/-- Every event the pass loop emits is an overwrite-phase event. -/
theorem passLoop_events_ov (stopAt : Option Nat) (chunks : List Nat) :
    ∀ (gens : List PatternGen) (i : Nat), ∀ e ∈ (passLoop stopAt chunks gens i).events,
      isOvEv e = true := by
  intro gens
  induction gens with
  | nil => intro i e he; simp [passLoop] at he
  | cons g rest ih =>
    intro i e he
    simp only [passLoop] at he
    split at he
    · simp only [List.mem_singleton] at he
      subst he; rfl
    · split at he
      · simp only [List.mem_cons] at he
        rcases he with h | h
        · subst h; rfl
        · exact chunkLoop_events_ov stopAt chunks (i + 1) e h
      · rcases List.mem_cons.mp he with h | h
        · subst h; rfl
        · rcases List.mem_append.mp h with h2 | h2
          · rcases List.mem_append.mp h2 with h3 | h3
            · exact chunkLoop_events_ov stopAt chunks (i + 1) e h3
            · simp only [List.mem_singleton] at h3
              subst h3; rfl
          · exact ih _ e h2

/-- Every event the overwrite phase emits (polls, chunk writes, fsyncs, the
read-back warning) is an overwrite-phase event — in particular the phase
never renames, obfuscates timestamps or unlinks. -/
theorem overwriteRun_events_ov (rng : Nat → List Nat) (stopAt : Option Nat)
    (content : List Nat) :
    ∀ e ∈ (overwriteRun rng stopAt content).events, isOvEv e = true := by
  intro e he
  simp only [overwriteRun] at he
  split at he
  · exact passLoop_events_ov stopAt _ gutmann_35_pass 0 e he
  · split at he
    · simp only [List.mem_append, List.mem_singleton] at he
      rcases he with h | h
      · exact passLoop_events_ov stopAt _ gutmann_35_pass 0 e h
      · subst h; rfl
    · exact passLoop_events_ov stopAt _ gutmann_35_pass 0 e he

/-- Once validation and the first rename attempt succeed and the overwrite
completes, the trace is exactly rename, the overwrite events, the timestamp
obfuscation, and — only when the file is not kept — unlink followed by the
re-stat. -/
theorem shredFile_trace_completed (rng : Nat → List Nat) (inp : ShredInput)
    (keep : Bool) (stopAt : Option Nat) (eau tsF : Bool)
    (hv : validationOk inp = true)
    (hi : (overwriteRun rng stopAt inp.content).interrupted = false) :
    (shredFile rng inp keep stopAt eau tsF).1
      = Ev.renameEv :: (overwriteRun rng stopAt inp.content).events
          ++ [Ev.timestampsEv tsF]
          ++ (if keep then [] else [Ev.unlinkEv, Ev.restatEv]) := by
  simp only [validationOk, Bool.and_eq_true, Bool.not_eq_true',
    Bool.or_eq_true] at hv
  obtain ⟨⟨⟨⟨⟨h1, h2⟩, h3⟩, h4⟩, h5⟩, h6⟩ := hv
  have h5' : (inp.sensitive && !inp.absStartsWithHome) = false := by
    rcases h5 with h5 | h5 <;> simp [h5]
  cases keep <;> cases eau <;>
    simp [shredFile, h1, h2, h3, h4, h5', h6, hi]

/-- When the overwrite is interrupted, the trace is the rename followed by
the overwrite events up to the poll that observed the signal. -/
theorem shredFile_trace_interrupted (rng : Nat → List Nat) (inp : ShredInput)
    (keep : Bool) (stopAt : Option Nat) (eau tsF : Bool)
    (hv : validationOk inp = true)
    (hi : (overwriteRun rng stopAt inp.content).interrupted = true) :
    (shredFile rng inp keep stopAt eau tsF).1
      = Ev.renameEv :: (overwriteRun rng stopAt inp.content).events := by
  simp only [validationOk, Bool.and_eq_true, Bool.not_eq_true',
    Bool.or_eq_true] at hv
  obtain ⟨⟨⟨⟨⟨h1, h2⟩, h3⟩, h4⟩, h5⟩, h6⟩ := hv
  have h5' : (inp.sensitive && !inp.absStartsWithHome) = false := by
    rcases h5 with h5 | h5 <;> simp [h5]
  simp [shredFile, h1, h2, h3, h4, h5', h6, hi]

/-- A failure message built on the refusal text can never collide with the
post-unlink consistency message, whatever the interpolated path. -/
theorem refusing_ne_consistencyMsg (p : String) :
    " Advanced MODE ERROR: " ++ ("REFUSING TO SHRED SYSTEM PATH: " ++ p)
      ≠ consistencyErrMsg := by
  intro h
  have hd := congrArg String.data h
  rw [String.data_append, String.data_append, ← List.append_assoc] at hd
  have h2 := congrArg (List.take 53) hd
  rw [List.take_left'] at h2
  · exact absurd h2 (by decide)
  · decide

/-- The consistency failure `(False, " Advanced MODE ERROR: FILE STILL
EXISTS AFTER DELETION")` arises from exactly one program point: a completed
non-`keep` run whose post-`unlink` re-stat still finds the path — no other
failure of `shred_file_Advanced_mode` can produce this result. -/
theorem consistency_result_characterizes (rng : Nat → List Nat)
    (inp : ShredInput) (keep : Bool) (stopAt : Option Nat) (eau tsF : Bool)
    (h : (shredFile rng inp keep stopAt eau tsF).2 = (false, consistencyErrMsg)) :
    validationOk inp = true ∧ keep = false ∧ eau = true
      ∧ (overwriteRun rng stopAt inp.content).interrupted = false := by
  simp only [shredFile] at h
  split_ifs at h with c1 c2 c3 c4 c5 c6 c7 c8 c9
  · exact absurd h (by decide)
  · exact absurd h (by decide)
  · exact absurd h (by decide)
  · exact absurd h (by decide)
  · exact absurd (congrArg Prod.snd h)
      (by simpa [errRes] using refusing_ne_consistencyMsg inp.pathName)
  · exact absurd h (by decide)
  · have h' : ((false : Bool), cancelledResultMsg) = ((false : Bool), consistencyErrMsg) := h
    exact absurd h' (by decide)
  · refine ⟨?_, ?_, c9, ?_⟩
    · simp at c1 c2 c3 c4 c5 c6
      simp only [validationOk, Bool.and_eq_true, Bool.not_eq_true',
        Bool.or_eq_true]
      refine ⟨⟨⟨⟨⟨c1, c2⟩, c3⟩, c4⟩, ?_⟩, c6⟩
      cases hs : inp.sensitive
      · exact Or.inl rfl
      · exact Or.inr (c5 hs)
    · simpa using c8
    · simpa using c7
  · simp at h
  · simp at h

/-- A list of overwrite-phase events contains no rename. -/
theorem count_rename_zero_of_ov (l : List Ev)
    (hl : ∀ e ∈ l, isOvEv e = true) : l.count Ev.renameEv = 0 := by
  rw [List.count_eq_zero]
  intro hm
  have h := hl _ hm
  simp [isOvEv] at h

/-- C5: for every validated invocation of single-file shredding the steps
occur in strict order — the trace begins with the rename (so renaming
precedes every overwritten byte) and the rename happens exactly once; a
completed run's trace is rename, then only overwrite events, then the
timestamp obfuscation (present for both `keep` values, i.e. also when the
file is deleted next), then either `unlink` + re-stat or nothing; if the
re-stat still finds the path the result is the consistency failure, which
no other failure of the function can produce and which differs from the
cancellation result. -/
theorem C5_pipeline_strict_order (rng : Nat → List Nat) (inp : ShredInput)
    (keep : Bool) (stopAt : Option Nat) (eau tsF : Bool)
    (hv : validationOk inp = true) :
    (∃ rest, (shredFile rng inp keep stopAt eau tsF).1 = Ev.renameEv :: rest)
    ∧ (shredFile rng inp keep stopAt eau tsF).1.count Ev.renameEv = 1
    ∧ ((shredFile rng inp keep none eau tsF).1
        = Ev.renameEv :: (overwriteRun rng none inp.content).events
            ++ [Ev.timestampsEv tsF]
            ++ (if keep then [] else [Ev.unlinkEv, Ev.restatEv]))
    ∧ (∀ e ∈ (overwriteRun rng none inp.content).events, isOvEv e = true)
    ∧ (keep = false → eau = true →
        (shredFile rng inp keep none eau tsF).2 = (false, consistencyErrMsg))
    ∧ (∀ (rng' : Nat → List Nat) (inp' : ShredInput) (keep' : Bool)
         (stopAt' : Option Nat) (eau' tsF' : Bool),
        (shredFile rng' inp' keep' stopAt' eau' tsF').2
            = (false, consistencyErrMsg) →
          validationOk inp' = true ∧ keep' = false ∧ eau' = true)
    ∧ consistencyErrMsg ≠ cancelledResultMsg := by
  have hovz := count_rename_zero_of_ov _ (overwriteRun_events_ov rng stopAt inp.content)
  have hcount : (shredFile rng inp keep stopAt eau tsF).1.count Ev.renameEv = 1 := by
    by_cases hi : (overwriteRun rng stopAt inp.content).interrupted = true
    · rw [shredFile_trace_interrupted rng inp keep stopAt eau tsF hv hi]
      simp [hovz]
    · rw [shredFile_trace_completed rng inp keep stopAt eau tsF hv
        (by simpa using hi)]
      cases keep <;> simp [hovz, List.count_append]
  refine ⟨?_, hcount, ?_, overwriteRun_events_ov rng none inp.content, ?_, ?_, by decide⟩
  · by_cases hi : (overwriteRun rng stopAt inp.content).interrupted = true
    · exact ⟨_, shredFile_trace_interrupted rng inp keep stopAt eau tsF hv hi⟩
    · refine ⟨(overwriteRun rng stopAt inp.content).events
          ++ [Ev.timestampsEv tsF]
          ++ (if keep then [] else [Ev.unlinkEv, Ev.restatEv]), ?_⟩
      rw [shredFile_trace_completed rng inp keep stopAt eau tsF hv
        (by simpa using hi)]
      simp
  · exact shredFile_trace_completed rng inp keep none eau tsF hv
      (overwriteRun_none_not_interrupted rng inp.content)
  · intro hk he
    subst hk he
    simp only [validationOk, Bool.and_eq_true, Bool.not_eq_true',
      Bool.or_eq_true] at hv
    obtain ⟨⟨⟨⟨⟨h1, h2⟩, h3⟩, h4⟩, h5⟩, h6⟩ := hv
    have h5' : (inp.sensitive && !inp.absStartsWithHome) = false := by
      rcases h5 with h5 | h5 <;> simp [h5]
    simp [shredFile, h1, h2, h3, h4, h5', h6,
      overwriteRun_none_not_interrupted rng inp.content]
  · intro rng' inp' keep' stopAt' eau' tsF' h
    obtain ⟨a, b, c, _⟩ := consistency_result_characterizes rng' inp' keep' stopAt' eau' tsF' h
    exact ⟨a, b, c⟩

/-- Witness for `C5_pipeline_strict_order`: the completed non-`keep` run on
the concrete one-byte file whose re-stat still finds the path reports the
consistency failure. -/
theorem C5_pipeline_strict_order_witness :
    (shredFile rngZero sampleInput false none true false).2
      = (false, consistencyErrMsg) :=
  (C5_pipeline_strict_order rngZero sampleInput false none true false
    (by decide)).2.2.2.2.1 rfl rfl

/-- C6: the claim says a cancellation observed mid-overwrite yields an
unsuccessful "cancelled" result and, with `keep_file = false`, deletes the
renamed temporary file.  The code violates the deletion part: the
`OperationInterrupted` raised at the poll is swallowed by the blanket
`except Exception` of `_secure_overwrite_ultimate` and re-raised as a
`ShredError`, so the `except OperationInterrupted` cleanup of
`shred_file_Advanced_mode` (lines 690–698) never runs.  Evaluating the
embedded code with the signal set from the first poll: the run stops at
that poll with no chunk written, returns the unsuccessful
cancellation-text result (which the directory loop does recognise as a
cancellation), but the trace contains the rename and no unlink of any
kind — the renamed, partially overwritten file stays on disk. -/
theorem C6_cancellation_leaves_renamed_temp_behind :
    (shredFile rngZero sampleInput false (some 0) false false).1
        = [Ev.renameEv, Ev.pollEv 0]
    ∧ (shredFile rngZero sampleInput false (some 0) false false).2
        = (false, cancelledResultMsg)
    ∧ isCancelMsg cancelledResultMsg = true
    ∧ Ev.cleanupUnlinkEv ∉ (shredFile rngZero sampleInput false (some 0) false false).1
    ∧ Ev.unlinkEv ∉ (shredFile rngZero sampleInput false (some 0) false false).1
    ∧ ((shredFile rngZero sampleInput false (some 0) false false).1.filter
        isWriteEv).length = 0 := by
  refine ⟨by decide, by decide, by decide, by decide, by decide, by decide⟩

/-- C10: shredding an existing zero-byte regular file succeeds — all 35
passes run (no chunk is written, but each pass fsyncs), the read-back is
skipped on the empty content (no warning event), and the result is success
with the unlink/re-stat disposition when `keep_file = false`, or success
with the file kept under its obfuscated name when `keep_file = true`. -/
theorem C10_zero_byte_file_succeeds :
    (shredFile rngZero emptyFileInput false none false false).2
        = (true, "☠️ FILE DESTROYED: secret.txt -> IRRECOVERABLE")
    ∧ (shredFile rngZero emptyFileInput true none false false).2
        = (true,
           "✅ FILE PRESERVED: secret.txt -> AdvancedMODE_0f.tmp (ALL METADATA OBFUSCATED)")
    ∧ ((shredFile rngZero emptyFileInput false none false false).1.filter
        (fun e => e == Ev.fsyncEv)).length = 35
    ∧ ((shredFile rngZero emptyFileInput false none false false).1.filter
        isWriteEv).length = 0
    ∧ Ev.verifyWarnEv ∉ (shredFile rngZero emptyFileInput false none false false).1
    ∧ Ev.unlinkEv ∈ (shredFile rngZero emptyFileInput false none false false).1
    ∧ (shredFile rngZero emptyFileInput false none false false).1.getLast?
        = some Ev.restatEv
    ∧ Ev.unlinkEv ∉ (shredFile rngZero emptyFileInput true none false false).1 := by
  refine ⟨by decide, by decide, by decide, by decide, by decide, by decide,
    by decide, by decide⟩

/-- Whether the overwrite phase is interrupted depends only on the stop
signal and the file size, never on the generated bytes: the verification
read-back can change the events but not the outcome. -/
theorem overwriteRun_interrupted_eq_passLoop (rng : Nat → List Nat)
    (stopAt : Option Nat) (content : List Nat) :
    (overwriteRun rng stopAt content).interrupted
      = (passLoop stopAt
          (chunkSizes (computeBufsize content.length) content.length)
          gutmann_35_pass 0).interrupted := by
  simp only [overwriteRun]
  split
  · rfl
  · next hr =>
    split
    · simp only [Bool.not_eq_true] at hr
      exact hr.symm
    · rfl

/-- The result of `shred_file_Advanced_mode` is unchanged under a change
of random stream or of the injected timestamp-failure flag, provided the
two runs interrupt identically. -/
theorem shredFile_result_eq (rng rng' : Nat → List Nat) (inp : ShredInput)
    (keep : Bool) (stopAt : Option Nat) (eau : Bool) (tsF tsF' : Bool)
    (hio : (overwriteRun rng stopAt inp.content).interrupted
      = (overwriteRun rng' stopAt inp.content).interrupted) :
    (shredFile rng inp keep stopAt eau tsF).2
      = (shredFile rng' inp keep stopAt eau tsF').2 := by
  unfold shredFile
  by_cases h1 : (!inp.existsOnDisk) = true
  · rw [if_pos h1, if_pos h1]
  · rw [if_neg h1, if_neg h1]
    by_cases h2 : (!inp.isFile) = true
    · rw [if_pos h2, if_pos h2]
    · rw [if_neg h2, if_neg h2]
      by_cases h3 : inp.isSymlink = true
      · rw [if_pos h3, if_pos h3]
      · rw [if_neg h3, if_neg h3]
        by_cases h4 : inp.isDir = true
        · rw [if_pos h4, if_pos h4]
        · rw [if_neg h4, if_neg h4]
          by_cases h5 : (inp.sensitive && !inp.absStartsWithHome) = true
          · rw [if_pos h5, if_pos h5]
          · rw [if_neg h5, if_neg h5]
            by_cases h6 : (!inp.renameOk) = true
            · rw [if_pos h6, if_pos h6]
            · rw [if_neg h6, if_neg h6]
              by_cases h7 : (overwriteRun rng stopAt inp.content).interrupted = true
              · rw [if_pos h7, if_pos (hio.symm.trans h7)]
              · rw [if_neg h7, if_neg (fun hh => h7 (hio.trans hh))]
                by_cases h8 : (!keep) = true
                · rw [if_pos h8, if_pos h8]
                  by_cases h9 : eau = true
                  · rw [if_pos h9, if_pos h9]
                  · rw [if_neg h9, if_neg h9]
                · rw [if_neg h8, if_neg h8]

/-- A failed timestamp obfuscation never changes the result of
`shred_file_Advanced_mode`. -/
theorem shredFile_result_tsFails_invariant (rng : Nat → List Nat)
    (inp : ShredInput) (keep : Bool) (stopAt : Option Nat) (eau tsF : Bool) :
    (shredFile rng inp keep stopAt eau tsF).2
      = (shredFile rng inp keep stopAt eau false).2 :=
  shredFile_result_eq rng rng inp keep stopAt eau tsF false rfl

/-- The result of `shred_file_Advanced_mode` does not depend on the random
stream, hence not on the bytes the read-back verification inspects. -/
theorem shredFile_result_rng_invariant (rng rng' : Nat → List Nat)
    (inp : ShredInput) (keep : Bool) (stopAt : Option Nat) (eau tsF : Bool) :
    (shredFile rng inp keep stopAt eau tsF).2
      = (shredFile rng' inp keep stopAt eau tsF).2 :=
  shredFile_result_eq rng rng' inp keep stopAt eau tsF tsF
    (by rw [overwriteRun_interrupted_eq_passLoop,
      overwriteRun_interrupted_eq_passLoop])

/-- A failure to remove the emptied directory tree never changes the
result of `shred_directory`. -/
theorem shredDirectoryRun_result_rmtree_invariant (outcomes : List FileOutcome)
    (keep rmOk : Bool) :
    (shredDirectoryRun outcomes keep rmOk).2.2
      = (shredDirectoryRun outcomes keep true).2.2 := by
  simp only [shredDirectoryRun]
  split
  · rfl
  · cases h : (dirLoop outcomes).2 <;> rfl

/-- C7: best-effort sub-steps degrade with a warning but never flip the
operation result — the result of `shred_file` is unchanged by a timestamp
obfuscation failure and by the random stream (so by whatever the final
read-back sees), the result of `shred_directory` is unchanged by a
directory-removal failure, and a run in which the read-back genuinely logs
its warning still reports success. -/
theorem C7_best_effort_substeps_never_fail_operation (rng rng' : Nat → List Nat)
    (inp : ShredInput) (keep : Bool) (stopAt : Option Nat) (eau tsF : Bool)
    (outcomes : List FileOutcome) (dkeep rmOk : Bool) :
    ((shredFile rng inp keep stopAt eau tsF).2
        = (shredFile rng inp keep stopAt eau false).2)
    ∧ ((shredFile rng inp keep stopAt eau tsF).2
        = (shredFile rng' inp keep stopAt eau tsF).2)
    ∧ ((shredDirectoryRun outcomes dkeep rmOk).2.2
        = (shredDirectoryRun outcomes dkeep true).2.2)
    ∧ (Ev.verifyWarnEv ∈ (shredFile rngOne sampleInput false none false false).1
        ∧ (shredFile rngOne sampleInput false none false false).2.1 = true) :=
  ⟨shredFile_result_tsFails_invariant rng inp keep stopAt eau tsF,
   shredFile_result_rng_invariant rng rng' inp keep stopAt eau tsF,
   shredDirectoryRun_result_rmtree_invariant outcomes dkeep rmOk,
   by decide, by decide⟩

/-- A cancel-free outcome list is processed in full without interruption. -/
theorem dirLoop_no_cancel (outcomes : List FileOutcome)
    (h : outcomes.all (fun o => !isCancelOutcome o) = true) :
    dirLoop outcomes = (outcomes.length, none) := by
  induction outcomes with
  | nil => rfl
  | cons o rest ih =>
    simp only [List.all_cons, Bool.and_eq_true] at h
    obtain ⟨h1, h2⟩ := h
    cases o with
    | ok => simp [dirLoop, ih h2]
    | fail m =>
      have h1' : isCancelMsg m = false := by
        simpa [isCancelOutcome] using h1
      simp [dirLoop, h1', ih h2]

/-- The first cancellation outcome stops the loop at once with its
message. -/
theorem dirLoop_first_cancel (m : String) (hm : isCancelMsg m = true) :
    ∀ (pre suf : List FileOutcome),
      pre.all (fun o => !isCancelOutcome o) = true →
      dirLoop (pre ++ FileOutcome.fail m :: suf) = (pre.length + 1, some m) := by
  intro pre
  induction pre with
  | nil => intro suf _; simp [dirLoop, hm]
  | cons o rest ih =>
    intro suf h
    simp only [List.all_cons, Bool.and_eq_true] at h
    obtain ⟨h1, h2⟩ := h
    cases o with
    | ok => simp [dirLoop, ih suf h2]
    | fail m2 =>
      have h1' : isCancelMsg m2 = false := by
        simpa [isCancelOutcome] using h1
      simp [dirLoop, h1', ih suf h2]

/-- C8: in a directory shred a single file's non-cancellation failure never
aborts the run — every file is processed and the operation still reports
success — while a failure whose message marks a cancellation stops the loop
immediately and is reported as an unsuccessful result; and an empty
eligible-file list yields the returned (not raised) no-files-found
result. -/
theorem C8_directory_failure_isolation (outcomes : List FileOutcome)
    (keep rmOk : Bool) (pre suf : List FileOutcome) (m : String)
    (hnc : outcomes.all (fun o => !isCancelOutcome o) = true)
    (hne : outcomes ≠ [])
    (hpre : pre.all (fun o => !isCancelOutcome o) = true)
    (hm : isCancelMsg m = true) :
    shredDirectoryRun [] keep rmOk
        = (0, false, (false, "No files found in directory"))
    ∧ (shredDirectoryRun outcomes keep rmOk).1 = outcomes.length
    ∧ (shredDirectoryRun outcomes keep rmOk).2.2.1 = true
    ∧ shredDirectoryRun (pre ++ FileOutcome.fail m :: suf) keep rmOk
        = (pre.length + 1, false, (false, m)) := by
  have hie : outcomes.isEmpty = false := by
    cases outcomes with
    | nil => exact absurd rfl hne
    | cons a l => rfl
  have hd := dirLoop_no_cancel outcomes hnc
  have hie2 : (pre ++ FileOutcome.fail m :: suf).isEmpty = false := by
    cases pre <;> rfl
  refine ⟨rfl, ?_, ?_, ?_⟩
  · simp [shredDirectoryRun, hie, hd]
  · simp [shredDirectoryRun, hie, hd]
  · simp [shredDirectoryRun, hie2, dirLoop_first_cancel m hm pre suf hpre]

/-- Witness for `C8_directory_failure_isolation`: a three-file run with one
plain failure in the middle processes all three files and succeeds, and the
run with a cancellation-marked failure stops at it. -/
theorem C8_directory_failure_isolation_witness :
    (shredDirectoryRun [FileOutcome.ok, FileOutcome.fail "disk full",
        FileOutcome.ok] false true).1 = 3
    ∧ (shredDirectoryRun [FileOutcome.ok, FileOutcome.fail "disk full",
        FileOutcome.ok] false true).2.2.1 = true
    ∧ shredDirectoryRun ([FileOutcome.ok]
          ++ FileOutcome.fail cancelledResultMsg :: [FileOutcome.ok]) false true
        = (2, false, (false, cancelledResultMsg)) := by
  have h := C8_directory_failure_isolation
    [FileOutcome.ok, FileOutcome.fail "disk full", FileOutcome.ok] false true
    [FileOutcome.ok] [FileOutcome.ok] cancelledResultMsg
    (by decide) (by decide) (by decide) (by decide)
  exact ⟨h.2.1, h.2.2.1, h.2.2.2⟩

/-- C1: the claim says `validate_shredding_path` returns `is_safe = false`
for every filesystem root and every path under a denylisted system
directory on either platform table.  The code violates this on POSIX: the
classifier rewrites `/` to `\` in the candidate path before comparing it
against POSIX table entries that are written with `/`, so no POSIX entry
(and no bare `/` root) can ever match.  This theorem evaluates the embedded
code: `/etc/passwd` is denylist-matched by the spec's own matching rule,
yet `validate_shredding_path` accepts it, and accepts the root `/`;
meanwhile the Windows table and drive-root checks do work, and an ordinary
file under the caller's home directory is accepted as the claim says. -/
theorem C1_validate_shredding_path_posix_denylist_bypassed :
    specPosixDenyMatch "/etc/passwd".toList = true
    ∧ validate_shredding_path .posix ⟨true, false⟩ ⟨"/etc/passwd".toList, false⟩
        = (true, "Path validated - Advanced MODE READY")
    ∧ validate_shredding_path .posix ⟨true, false⟩ ⟨"/".toList, false⟩
        = (true, "Path validated - Advanced MODE READY")
    ∧ validate_shredding_path .windows ⟨true, false⟩
        ⟨"C:\\Windows\\System32\\config".toList, false⟩
        = (false, "Path is in system location")
    ∧ validate_shredding_path .windows ⟨true, false⟩ ⟨"C:\\".toList, false⟩
        = (false, "Path is in system location")
    ∧ validate_shredding_path .posix ⟨true, false⟩
        ⟨"/home/user/file.txt".toList, true⟩
        = (true, "Path validated - Advanced MODE READY") := by
  refine ⟨by decide, by decide, by decide, by decide, by decide, by decide⟩

/-- C2 counterexample: the claim demands that a path under the caller's
home directory that is exactly a denylisted root be classified sensitive
(`true`).  Running as root, `Path.home()` is `/root`, `/root` is exactly a
denylisted root (`"/root/"` is in the exact-match table), and
`Path("/root").is_relative_to(Path("/root"))` holds — yet the classifier
returns `false`, because the home carve-out is the first check and is
unconditional. -/
theorem C2_counterexample_home_root :
    specPosixDenylistedRoot "/root".toList = true
    ∧ isSensitiveSystemPath .posix ⟨"/root".toList, true⟩ = false := by
  refine ⟨by decide, by decide⟩

/-- C2 amended: the home-directory carve-out of
`_is_sensitive_system_path` is unconditional — every path whose resolved
absolute form lies under the caller's home directory is classified not
sensitive, including one that is exactly a denylisted root. -/
theorem C2_home_carveout_unconditional (plat : Platform) (p : PathInfo)
    (h : p.underHome = true) : isSensitiveSystemPath plat p = false := by
  simp [isSensitiveSystemPath, h]

/-- Witness for `C2_home_carveout_unconditional` at the concrete root-home
input. -/
theorem C2_home_carveout_unconditional_witness :
    isSensitiveSystemPath .posix ⟨"/root".toList, true⟩ = false :=
  C2_home_carveout_unconditional .posix ⟨"/root".toList, true⟩ rfl

/-- C3: `get_wipe_method()` is the fixed 35-entry schedule described by the
spec — 4 fresh-random passes, `0x55`/`0xAA`, the `{0x92,0x49,0x24}`-family
motif triple, 16 constant fills stepping `0x00,0x11,…,0xFF` in strictly
increasing order, both motif triples, and 4 final fresh-random passes.
`get_wipe_method` takes no parameters, so the schedule cannot vary with
file size or type; `random` entries denote calls to
`secrets.token_bytes`, which produces fresh cryptographically secure bytes
on every call. -/
theorem C3_schedule_is_fixed_35_pass_gutmann :
    get_wipe_method = gutmannScheduleSpec ∧ get_wipe_method.length = 35 := by
  refine ⟨by decide, by decide⟩

end ShredGuttman
